import Mathlib

/-!
Verification of the Bermuda BLE locator against its specification.

The definitions below are shallow embeddings of the Python sources in
`custom_components/bermuda/` (`trilateration.py`, `coordinator.py`).
Machine floats are modelled by exact arithmetic: `ℚ` wherever the code
only performs field operations and comparisons, and `ℝ` where the code
uses `math.sqrt` / `math.hypot` / float `**` with fractional exponents.
Python exceptions are modelled with `Except`; `None` results with
`Option` or explicit constructors.
-/

/-! ## Trilateration (`trilateration.py`)

`trilaterate(positions, distances)` takes a list of scanner position
tuples (the declared parameter type is `List[Tuple[float, float, float]]`,
and the caller `perform_trilateration` appends the stored position
tuples) and builds the linearised multilateration system `A * x = b`,
solving it with `np.linalg.lstsq`.  The expression for `b`, however,
squares the position tuples themselves: `np.sum(positions[0]**2)`.  A
Python tuple does not support `**`, so this raises `TypeError` before
`lstsq` is reached, and the surrounding `try`/`except
np.linalg.LinAlgError` does not catch it.  Evaluating the function body:

* no positions: the `A` line evaluates `np.array(positions[0])`,
  raising `IndexError`;
* one position `p0`: the `A` line subtracts the shape-(2,) array
  `2 * np.array(p0)` from the empty array `2 * np.array([])`, raising a
  broadcasting `ValueError`;
* two or more positions: the `A` line succeeds (arrays of tuples are
  fine), and the first iteration (`i = 1`) of the `b` list comprehension
  evaluates left to right: `distances[0]**2` (raising `IndexError` if
  `distances` is empty), `distances[1]**2` (raising `IndexError` if
  `distances` has one element), then `np.sum(positions[0]**2)`, whose
  `positions[0]**2` raises `TypeError` since tuples do not support `**`.

So every call raises: `return tuple(estimated_position)` and the
`except np.linalg.LinAlgError: return None` branch are both unreachable.
The caller `perform_trilateration` swallows the exception with a broad
`except Exception` and logs an error, so no position is ever stored.
-/

/-- Python exception class raised out of `trilaterate`. -/
inductive PyExc where
  | typeError
  | indexError
  | valueError
deriving DecidableEq, Repr

/-- Result of a call to `trilaterate`: a returned position tuple, the
`None` returned when `np.linalg.lstsq` raises `LinAlgError`, or a Python
exception escaping the function. -/
inductive TriResult (F : Type) where
  | pos (p : F × F)
  | null
  | err (e : PyExc)
deriving DecidableEq, Repr

/-- Embedding of `trilaterate` from `trilateration.py`, for 2-D points.
Each branch records the first exception raised by the function body on
inputs of that shape, per the case analysis in the section comment: the
`IndexError` on `positions[0]` for no positions; the broadcasting
`ValueError` for one position; the `IndexError` on `distances[0]` or
`distances[1]` in the `b` comprehension when there are at least two
positions but fewer than two distances; and otherwise the `TypeError`
from `positions[0] ** 2` on a tuple.  Because that `TypeError` fires in
the `b` comprehension — before `np.linalg.lstsq` and outside the
`except np.linalg.LinAlgError` handler — the constructors
`TriResult.pos` (the `return tuple(...)` line) and `TriResult.null` (the
`return None` line) are never produced. -/
def trilaterate {F : Type} : List (F × F) → List F → TriResult F
  | [], _ => TriResult.err PyExc.indexError
  | [_], _ => TriResult.err PyExc.valueError
  | _ :: _ :: _, [] => TriResult.err PyExc.indexError
  | _ :: _ :: _, [_] => TriResult.err PyExc.indexError
  | _ :: _ :: _, _ :: _ :: _ => TriResult.err PyExc.typeError

/-- Exact Euclidean distance between two points of the plane, used to
express "distances computed as exact Euclidean distances" in claim C1. -/
noncomputable def euclidean_distance (p q : ℝ × ℝ) : ℝ :=
  Real.sqrt ((p.1 - q.1) * (p.1 - q.1) + (p.2 - q.2) * (p.2 - q.2))

/-- Claim C1 evaluated at its own scenario: with scanners at (0,0),
(10,0), (0,10) and the exact Euclidean distances to the device at (3,4),
`trilaterate` does not return (3,4) — it raises `TypeError` at
`positions[0] ** 2`, because the positions are tuples.  The docstring
and return annotation of `trilaterate` promise the estimated position
tuple and the spec states the round-trip law, so the claim captures the
intent and the code is the slip: a code bug, witnessed here by the
faithful embedding evaluating to the escaped exception. -/
theorem C1_trilaterate_scenario_raises :
    trilaterate (F := ℝ) [(0, 0), (10, 0), (0, 10)]
      [euclidean_distance (0, 0) (3, 4), euclidean_distance (10, 0) (3, 4),
        euclidean_distance (0, 10) (3, 4)] = TriResult.err PyExc.typeError := rfl

/-- Counterexample to claim C2: `trilaterate` does not return null for
short or degenerate inputs — it raises.  For three collinear scanners,
for three coincident scanners and for only two scanners it raises
`TypeError` (at `positions[0] ** 2`); for a single scanner it raises the
broadcasting `ValueError`.  In no case is null returned. -/
theorem C2_counterexample :
    trilaterate (F := ℚ) [(0, 0), (1, 0), (2, 0)] [1, 1, 1]
        = TriResult.err PyExc.typeError
      ∧ trilaterate (F := ℚ) [(0, 0), (0, 0), (0, 0)] [1, 1, 1]
        = TriResult.err PyExc.typeError
      ∧ trilaterate (F := ℚ) [(0, 0), (1, 0)] [1, 1]
        = TriResult.err PyExc.typeError
      ∧ trilaterate (F := ℚ) [(0, 0)] [1] = TriResult.err PyExc.valueError :=
  ⟨rfl, rfl, rfl, rfl⟩

/-- Claim C2 as amended: `trilaterate` never returns null — every call
raises, so in particular no short or degenerate input produces null (or
a position).  With at least two positions and at least two distances the
`b` comprehension raises `TypeError` at `positions[0] ** 2` (tuples do
not support `**`); with at least two positions but fewer than two
distances it raises `IndexError` on `distances[0]` or `distances[1]`;
with one position the `A` expression raises a broadcasting `ValueError`;
with none, `IndexError` on `positions[0]`.  The `except
np.linalg.LinAlgError: return None` branch is therefore unreachable —
and `lstsq`, had it been reached, returns a minimum-norm solution for
singular systems rather than raise. -/
theorem C2_trilaterate_raises_amended :
    ∀ (F : Type) (positions : List (F × F)) (distances : List F),
      (∃ e, trilaterate positions distances = TriResult.err e)
        ∧ trilaterate positions distances ≠ TriResult.null
        ∧ ∀ p, trilaterate positions distances ≠ TriResult.pos p := by
  intro F positions distances
  match positions, distances with
  | [], _ =>
      exact ⟨⟨PyExc.indexError, rfl⟩, fun h => TriResult.noConfusion h,
        fun p h => TriResult.noConfusion h⟩
  | [_], _ =>
      exact ⟨⟨PyExc.valueError, rfl⟩, fun h => TriResult.noConfusion h,
        fun p h => TriResult.noConfusion h⟩
  | _ :: _ :: _, [] =>
      exact ⟨⟨PyExc.indexError, rfl⟩, fun h => TriResult.noConfusion h,
        fun p h => TriResult.noConfusion h⟩
  | _ :: _ :: _, [_] =>
      exact ⟨⟨PyExc.indexError, rfl⟩, fun h => TriResult.noConfusion h,
        fun p h => TriResult.noConfusion h⟩
  | _ :: _ :: _, _ :: _ :: _ =>
      exact ⟨⟨PyExc.typeError, rfl⟩, fun h => TriResult.noConfusion h,
        fun p h => TriResult.noConfusion h⟩

/-! ## Association lists

Python `dict`s keyed by strings are modelled as association lists in
insertion order: assignment replaces the value of an existing key in
place, otherwise appends the new key at the end, exactly like a Python
`dict`; `List.lookup` models `dict.get`/`[]` (keys are unique in every
state reachable through these operations, and `alist_set` never
duplicates a key). -/

/-- Python `d[k] = v` on an association list. -/
def alist_set {α β : Type} [DecidableEq α] :
    List (α × β) → α → β → List (α × β)
  | [], k, v => [(k, v)]
  | kv :: rest, k, v =>
      if kv.1 = k then (k, v) :: rest else kv :: alist_set rest k v

theorem lookup_alist_set_self {α β : Type} [DecidableEq α]
    (m : List (α × β)) (k : α) (v : β) :
    (alist_set m k v).lookup k = some v := by
  induction m with
  | nil => simp [alist_set]
  | cons kv rest ih =>
      by_cases hk : kv.1 = k
      · simp [alist_set, hk]
      · simp only [alist_set, if_neg hk, List.lookup]
        have : (k == kv.1) = false := by
          simp only [beq_eq_false_iff_ne, ne_eq]
          exact fun h => hk h.symm
        rw [this]
        exact ih

/-! ## Path-loss factors (`coordinator.py`)

`self.path_loss_factors` is a process-wide `dict[str, float]` keyed by
the string `f"{device.address}_{scanner.address}"`. -/

/-- The dictionary key used for the per-(device, scanner) link. -/
def path_key (device scanner : String) : String := device ++ "_" ++ scanner

/-- Embedding of `calculate_path_loss_factor`: returns the stored
factor for the link, inserting and returning the free-space default 2.0
if the link has not been seen.  Returns the updated map together with
the value, modelling the in-place `dict` mutation. -/
def calculate_path_loss_factor (pls : List (String × ℚ))
    (device scanner : String) : List (String × ℚ) × ℚ :=
  let key := path_key device scanner
  match pls.lookup key with
  | some v => (pls, v)
  | none => (alist_set pls key 2, 2)

/-- Embedding of `update_path_loss_factor`: exponential smoothing with
`alpha = 0.1`, `updated = current * (1 - alpha) + measured_loss * alpha`,
where a link never seen before reads as the default 2.0. -/
def update_path_loss_factor (pls : List (String × ℚ))
    (device scanner : String) (measured_loss : ℚ) : List (String × ℚ) :=
  let key := path_key device scanner
  let current_factor := (pls.lookup key).getD 2
  let alpha : ℚ := 1 / 10
  let updated_factor := current_factor * (1 - alpha) + measured_loss * alpha
  alist_set pls key updated_factor

/-- Claim C6: one call to `update_path_loss_factor` stores exactly
`0.9 * old + 0.1 * measured_loss` for the link, where the old value of
an unseen link is the free-space default 2.0; and
`calculate_path_loss_factor` returns 2.0 for an unseen link. -/
theorem C6_path_loss_smoothing :
    (∀ (pls : List (String × ℚ)) (device scanner : String) (m : ℚ),
      (update_path_loss_factor pls device scanner m).lookup
          (path_key device scanner)
        = some ((pls.lookup (path_key device scanner)).getD 2 * (9 / 10)
            + m * (1 / 10)))
    ∧ ∀ (pls : List (String × ℚ)) (device scanner : String),
      pls.lookup (path_key device scanner) = none →
      (calculate_path_loss_factor pls device scanner).2 = 2 := by
  constructor
  · intro pls device scanner m
    unfold update_path_loss_factor
    rw [lookup_alist_set_self]
    norm_num
  · intro pls device scanner hnone
    simp only [calculate_path_loss_factor, hnone]

/-- Witness for C6: on the empty map, the link "aa"-"bb" is unseen, so
the lookup default applies; one update stores `2 * 0.9 + 3 * 0.1`, and
`calculate_path_loss_factor` reads back 2.0. -/
theorem C6_witness :
    (update_path_loss_factor [] "aa" "bb" 3).lookup (path_key "aa" "bb")
        = some (2 * (9 / 10) + 3 * (1 / 10))
      ∧ (calculate_path_loss_factor [] "aa" "bb").2 = 2 := by
  constructor
  · have h := C6_path_loss_smoothing.1 [] "aa" "bb" 3
    rw [h]
    norm_num
  · exact C6_path_loss_smoothing.2 [] "aa" "bb" rfl

/-! ## Distance from RSSI (`coordinator.py`)

`calculate_distance_from_rssi` uses the log-distance path-loss model,
but with a hard-coded transmit power of -59 dBm and a hard-coded
exponent of 2.0 — it takes no calibration constants and ignores the
configured `reference_power` / `attenuation` options entirely. -/

/-- Embedding of `calculate_distance_from_rssi`. -/
noncomputable def calculate_distance_from_rssi (rssi : ℝ) : ℝ :=
  let txPower : ℝ := -59
  let n : ℝ := 2
  (10 : ℝ) ^ ((txPower - rssi) / (10 * n))

/-- Counterexample to claim C7: the function does not use the
configured `reference_power`.  With a configured reference power of
-50 dBm and `rssi = -50` the claim demands a distance of exactly 1.0,
but the code computes `10 ^ ((-59 + 50) / 20) < 1`. -/
theorem C7_counterexample : calculate_distance_from_rssi (-50) ≠ 1 := by
  unfold calculate_distance_from_rssi
  intro h
  have hlt : (10 : ℝ) ^ (((-59 : ℝ) - -50) / (10 * 2)) < 1 :=
    Real.rpow_lt_one_of_one_lt_of_neg (by norm_num) (by norm_num)
  rw [h] at hlt
  exact lt_irrefl 1 hlt

/-- Claim C7 as amended: `calculate_distance_from_rssi` implements
`10 ^ ((txPower - rssi) / (10 * n))` with the hard-coded constants
`txPower = -59` and `n = 2.0` (not the configured calibration
constants), so the returned distance is exactly 1.0 precisely when
`rssi = -59`. -/
theorem C7_distance_from_rssi_amended :
    ∀ rssi : ℝ,
      calculate_distance_from_rssi rssi = (10 : ℝ) ^ (((-59 : ℝ) - rssi) / 20)
      ∧ (calculate_distance_from_rssi rssi = 1 ↔ rssi = -59) := by
  intro rssi
  have hform : calculate_distance_from_rssi rssi
      = (10 : ℝ) ^ (((-59 : ℝ) - rssi) / 20) := by
    unfold calculate_distance_from_rssi
    norm_num
  refine ⟨hform, ?_, ?_⟩
  · intro h1
    have hmono : StrictMono fun x : ℝ => (10 : ℝ) ^ x := fun a b hab =>
      (Real.rpow_lt_rpow_left_iff (by norm_num)).mpr hab
    have hzero : ((-59 : ℝ) - rssi) / 20 = 0 := by
      have h0 : (10 : ℝ) ^ (((-59 : ℝ) - rssi) / 20) = (10 : ℝ) ^ (0 : ℝ) := by
        rw [Real.rpow_zero]
        rw [hform] at h1
        exact h1
      exact hmono.injective h0
    have : (-59 : ℝ) - rssi = 0 := by linarith [hzero]
    linarith
  · intro h
    rw [hform, h]
    norm_num [Real.rpow_zero]

/-! ## Obstruction map and distance adjustment (`coordinator.py`)

`self.obstruction_map` is a `dict[tuple[float, float], float]`, modelled
as an association list of grid points to field-strength values (keys of
a Python dict are unique, so looking up the value carried by the
minimising entry is the same as `self.obstruction_map[nearest_point]`).
Python exceptions are modelled with `Except PyError`. -/

/-- The Python exceptions relevant here: `min()` of an empty sequence
raises `ValueError` inside `get_field_strength_estimate` when the
obstruction map has no entries. -/
inductive PyError where
  | emptySequenceMin
deriving DecidableEq, Repr

/-- Embedding of `get_field_strength_estimate`: the value stored at the
map key nearest to `(x, y)`.  `min(keys, key=hypot...)` keeps the first
minimising element in iteration order; since `hypot` is strictly
monotone in the squared distance, comparing squared distances selects
exactly the same entry.  On an empty map, `min` raises `ValueError`
(modelled as `PyError.emptySequenceMin`). -/
def get_field_strength_estimate (omap : List ((ℚ × ℚ) × ℚ)) (x y : ℚ) :
    Except PyError ℚ :=
  match omap with
  | [] => Except.error PyError.emptySequenceMin
  | e :: rest =>
      Except.ok (rest.foldl
        (fun best e2 =>
          if (e2.1.1 - x) * (e2.1.1 - x) + (e2.1.2 - y) * (e2.1.2 - y)
              < (best.1.1 - x) * (best.1.1 - x) + (best.1.2 - y) * (best.1.2 - y)
          then e2 else best) e).2

/-- Python `int()` truncates toward zero. -/
def pyTrunc (q : ℚ) : ℤ := if q < 0 then ⌈q⌉ else ⌊q⌋

/-- Python `range(a, b + 1)` over integers. -/
def int_range (a b : ℤ) : List ℤ := (List.range (b + 1 - a).toNat).map (fun i => a + i)

/-- Embedding of `count_wall_crossings`: sample the obstruction map at
integer grid boundaries along the `x` span (at the midpoint `y`) and
along the `y` span (at the midpoint `x`), counting each position where
the field-strength estimate increases across the half-step.  Any error
from `get_field_strength_estimate` propagates (there is no handler). -/
def count_wall_crossings (omap : List ((ℚ × ℚ) × ℚ))
    (start fin : ℚ × ℚ) : Except PyError ℕ := do
  let x1 := start.1
  let y1 := start.2
  let x2 := fin.1
  let y2 := fin.2
  let cx ← (int_range (pyTrunc (min x1 x2)) (pyTrunc (max x1 x2))).foldlM
    (fun (acc : ℕ) x => do
      let e1 ← get_field_strength_estimate omap (x : ℚ) ((y1 + y2) / 2)
      let e2 ← get_field_strength_estimate omap ((x : ℚ) + 1 / 2) ((y1 + y2) / 2)
      pure (if e1 < e2 then acc + 1 else acc)) 0
  let cy ← (int_range (pyTrunc (min y1 y2)) (pyTrunc (max y1 y2))).foldlM
    (fun (acc : ℕ) y => do
      let e1 ← get_field_strength_estimate omap ((x1 + x2) / 2) (y : ℚ)
      let e2 ← get_field_strength_estimate omap ((x1 + x2) / 2) ((y : ℚ) + 1 / 2)
      pure (if e1 < e2 then acc + 1 else acc)) 0
  pure (cx + cy)

/-- `math.hypot dx dy`, the Euclidean norm. -/
noncomputable def hypot (dx dy : ℚ) : ℝ :=
  Real.sqrt ((dx : ℝ) * (dx : ℝ) + (dy : ℝ) * (dy : ℝ))

/-- The part of a `BermudaDevice` that `apply_path_loss_factor` reads:
its address and its known 2-D position. -/
structure PosDevice where
  address : String
  position : ℚ × ℚ
deriving DecidableEq

/-- Embedding of `apply_path_loss_factor`.  It reads (creating the
default if needed) the per-link path-loss factor, computes the straight-
line distance between the device and scanner positions, raises it to
the power of the path-loss factor, multiplies by `0.5 ^ wall_crossings`
and stores the result as the (device, scanner) contact distance.
`device.update_distance_to_scanner` is not part of the sources;
modelled from the spec: it writes the adjusted distance onto the
(device, scanner) contact, here an association-list update.  The result
carries the updated path-loss map and the updated contact distances. -/
noncomputable def apply_path_loss_factor (omap : List ((ℚ × ℚ) × ℚ))
    (pls : List (String × ℚ)) (contacts : List ((String × String) × ℝ))
    (device scanner : PosDevice) :
    Except PyError (List (String × ℚ) × List ((String × String) × ℝ)) :=
  let res := calculate_path_loss_factor pls device.address scanner.address
  let start := device.position
  let fin := scanner.position
  let distance := hypot (fin.1 - start.1) (fin.2 - start.2)
  let adjusted_distance := distance ^ ((res.2 : ℚ) : ℝ)
  do
    let wall_crossings ← count_wall_crossings omap start fin
    pure (res.1, alist_set contacts (device.address, scanner.address)
      (adjusted_distance * (1 / 2 : ℝ) ^ wall_crossings))

/-- Model of the advert-processing pass of `_async_update_data`: for
every (device, scanner) observation in this update cycle the coordinator
calls `apply_path_loss_factor` (coordinator.py line 469).  Neither the
loop nor `_async_update_data` itself contains any exception handler
around that call, so an error raised below it propagates out of the
whole update cycle; the remaining steps of the cycle are irrelevant to
the failure and are not modelled. -/
noncomputable def _async_update_data (omap : List ((ℚ × ℚ) × ℚ))
    (pls : List (String × ℚ)) (contacts : List ((String × String) × ℝ))
    (observations : List (PosDevice × PosDevice)) :
    Except PyError (List (String × ℚ) × List ((String × String) × ℝ)) :=
  observations.foldlM
    (fun st obs => apply_path_loss_factor omap st.1 st.2 obs.1 obs.2)
    (pls, contacts)

/-- Claim C3 is right and the code is wrong (`code_bug`): when the
obstruction map has zero entries, one run of the update cycle raises an
unhandled `ValueError` (from `min()` of an empty sequence inside
`get_field_strength_estimate`) past its own boundary, for any device
observed by any scanner, instead of the clear `NoObstructionDataError`
or unmodified distance that the specification requires. -/
theorem C3_update_cycle_raises_on_empty_obstruction_map :
    _async_update_data [] [] []
      [(PosDevice.mk "aa:aa:aa:aa:aa:aa" (0, 0),
        PosDevice.mk "bb:bb:bb:bb:bb:bb" (3, 4))]
      = Except.error PyError.emptySequenceMin := by
  rfl

/-- Claim C8: `apply_path_loss_factor` computes the adjusted distance
as the straight-line distance between the device and scanner positions
raised to the power of the current per-link path-loss factor, times
`0.5 ^ wall_crossings` with the crossing count sampled from the
obstruction map, and writes it onto the (device, scanner) contact. -/
theorem C8_apply_path_loss_factor (omap : List ((ℚ × ℚ) × ℚ))
    (pls : List (String × ℚ)) (contacts : List ((String × String) × ℝ))
    (device scanner : PosDevice) (wc : ℕ)
    (hwc : count_wall_crossings omap device.position scanner.position
      = Except.ok wc) :
    apply_path_loss_factor omap pls contacts device scanner
      = Except.ok
          ((calculate_path_loss_factor pls device.address scanner.address).1,
            alist_set contacts (device.address, scanner.address)
              (hypot (scanner.position.1 - device.position.1)
                  (scanner.position.2 - device.position.2)
                  ^ (((calculate_path_loss_factor pls device.address
                      scanner.address).2 : ℚ) : ℝ)
                * (1 / 2 : ℝ) ^ wc)) := by
  simp only [apply_path_loss_factor, hwc]
  rfl

/-- Witness for C8: a one-entry obstruction map, a device at (0,0) and
a scanner at (3,4); the crossing count evaluates to 0 and the adjusted
distance `hypot 3 4 ^ 2 * 1` is written for the link. -/
theorem C8_witness :
    apply_path_loss_factor [((0, 0), 1)] [] []
        (PosDevice.mk "aa" (0, 0)) (PosDevice.mk "bb" (3, 4))
      = Except.ok
          ((calculate_path_loss_factor [] "aa" "bb").1,
            alist_set [] ("aa", "bb")
              (hypot (3 - 0) (4 - 0)
                  ^ (((calculate_path_loss_factor [] "aa" "bb").2 : ℚ) : ℝ)
                * (1 / 2 : ℝ) ^ 0)) := by
  have h : count_wall_crossings [((0, 0), 1)]
      (PosDevice.mk "aa" (0, 0)).position (PosDevice.mk "bb" (3, 4)).position
      = Except.ok 0 := by rfl
  have h2 := C8_apply_path_loss_factor [((0, 0), 1)] [] []
    (PosDevice.mk "aa" (0, 0)) (PosDevice.mk "bb" (3, 4)) 0 h
  exact h2

/-! ## Metadevice source lists (`coordinator.py`)

Two call sites mutate `metadevice.beacon_sources`:

* `register_ibeacon_source` (iBeacon registration): if the source
  address is not already present it is inserted at index 0 and the list
  is truncated with `del metadevice.beacon_sources[HIST_KEEP_COUNT:]`;

* `discover_private_ble_metadevices` (private-BLE source discovery):
  if the list is empty or its head differs from the new source address,
  the address is inserted at index 0 — with no truncation.

`HIST_KEEP_COUNT` lives in `const.py`, which is not part of the
sources; the operations are therefore parametrised by the bound. -/

/-- The `beacon_sources` update performed by `register_ibeacon_source`
for one observed iBeacon source address. -/
def register_ibeacon_source_sources (hist_keep_count : ℕ)
    (beacon_sources : List String) (source_address : String) : List String :=
  if source_address ∈ beacon_sources then beacon_sources
  else (source_address :: beacon_sources).take hist_keep_count

/-- The `beacon_sources` update performed by
`discover_private_ble_metadevices` for one reported current address. -/
def discover_private_ble_sources (beacon_sources : List String)
    (pb_source_address : String) : List String :=
  if beacon_sources.length = 0 ∨ beacon_sources.head? ≠ some pb_source_address
  then pb_source_address :: beacon_sources
  else beacon_sources

/-- Counterexample to claim C9: the private-BLE discovery path inserts
at the head but never truncates, so the bound is violated.  Taking the
history bound `HIST_KEEP_COUNT = 10` (its value is not fixed by the
sources; the violation is the same for every bound, with a
correspondingly longer insertion sequence), eleven rotations of the
private address leave eleven entries in `beacon_sources`. -/
theorem C9_counterexample :
    ¬ ((List.foldl discover_private_ble_sources []
        ["s0", "s1", "s2", "s3", "s4", "s5", "s6", "s7", "s8", "s9", "s10"]).length
      ≤ 10) := by decide

theorem foldl_register_ibeacon_length_le (hist_keep_count : ℕ)
    (addrs : List String) :
    ∀ init : List String, init.length ≤ hist_keep_count →
    (List.foldl (register_ibeacon_source_sources hist_keep_count) init
      addrs).length ≤ hist_keep_count := by
  induction addrs with
  | nil => intro init h; simpa using h
  | cons a rest ih =>
      intro init h
      rw [List.foldl_cons]
      refine ih _ ?_
      unfold register_ibeacon_source_sources
      by_cases hmem : a ∈ init
      · rw [if_pos hmem]; exact h
      · rw [if_neg hmem]
        calc ((a :: init).take hist_keep_count).length
            ≤ hist_keep_count := by
              rw [List.length_take]; exact min_le_left _ _

/-- Claim C9 as amended: every newly observed source address is
inserted at the head of `beacon_sources` on both paths; the iBeacon
registration path keeps the list within `HIST_KEEP_COUNT` after every
insertion (discarding the oldest entries); but the private-BLE
discovery path inserts without truncating, so no bound holds there. -/
theorem C9_beacon_sources_amended :
    (∀ (hist_keep_count : ℕ) (sources : List String) (addr : String),
        addr ∉ sources → 0 < hist_keep_count →
        (register_ibeacon_source_sources hist_keep_count sources addr).head?
          = some addr)
    ∧ (∀ (sources : List String) (addr : String),
        sources.head? ≠ some addr →
        (discover_private_ble_sources sources addr).head? = some addr)
    ∧ (∀ (hist_keep_count : ℕ) (addrs : List String),
        (List.foldl (register_ibeacon_source_sources hist_keep_count) [] addrs).length
          ≤ hist_keep_count)
    ∧ (∀ (sources : List String) (addr : String),
        sources.head? ≠ some addr →
        discover_private_ble_sources sources addr = addr :: sources) := by
  refine ⟨?_, ?_, ?_, ?_⟩
  · intro hist sources addr hmem hpos
    unfold register_ibeacon_source_sources
    rw [if_neg hmem]
    match hist, hpos with
    | n + 1, _ => simp [List.take]
  · intro sources addr hhead
    unfold discover_private_ble_sources
    rw [if_pos (Or.inr hhead)]
    rfl
  · intro hist addrs
    exact foldl_register_ibeacon_length_le hist addrs [] (by simp)
  · intro sources addr hhead
    unfold discover_private_ble_sources
    rw [if_pos (Or.inr hhead)]

/-- Witness for the amended C9, at concrete inputs: a fresh iBeacon
source lands at the head under bound 10; a fresh private-BLE source
lands at the head; three iBeacon insertions under bound 2 stay within
the bound; and a private-BLE insertion prepends without truncation. -/
theorem C9_amended_witness :
    (register_ibeacon_source_sources 10 [] "s1").head? = some "s1"
      ∧ (discover_private_ble_sources [] "s2").head? = some "s2"
      ∧ (List.foldl (register_ibeacon_source_sources 2) []
          ["a1", "a2", "a3"]).length ≤ 2
      ∧ discover_private_ble_sources ["x1"] "y1" = "y1" :: ["x1"] :=
  ⟨C9_beacon_sources_amended.1 10 [] "s1" (by decide) (by decide),
    C9_beacon_sources_amended.2.1 [] "s2" (by decide),
    C9_beacon_sources_amended.2.2.1 2 ["a1", "a2", "a3"],
    C9_beacon_sources_amended.2.2.2 ["x1"] "y1" (by decide)⟩

/-! ## Device records and area assignment (`coordinator.py`)

`BermudaDevice` and `BermudaDeviceScanner` live in `bermuda_device.py` /
`bermuda_device_scanner.py`, which are not part of the sources; the
fields modelled here are exactly those that `coordinator.py` reads and
writes in the claims under verification (identity, pruning and area
fields, scanner contacts, beacon sources).  `device.scanners.values()`
iterates a Python dict in insertion order, modelled as a list of
contact records. -/

/-- A scanner contact of a device: the fields of
`BermudaDeviceScanner` used by `_refresh_area_by_min_distance`. -/
structure BermudaDeviceScanner where
  name : String := ""
  rssi : Option ℚ := none
  rssi_distance : Option ℚ := none
  area_id : Option String := none
deriving DecidableEq, Repr

/-- Address types distinguished by `prune_devices`
(`BDADDR_TYPE_PRIVATE_RESOLVABLE`, `BDADDR_TYPE_NOT_MAC48`, and the
ordinary MAC case). -/
inductive AddrType where
  | mac48
  | private_resolvable
  | not_mac48
deriving DecidableEq, Repr

/-- A device record: the fields of `BermudaDevice` that the claims
touch. -/
structure BermudaDevice where
  address : String := ""
  unique_id : String := ""
  address_type : AddrType := AddrType.mac48
  last_seen : ℚ := 0
  create_sensor : Bool := false
  is_scanner : Bool := false
  beacon_sources : List String := []
  scanners : List BermudaDeviceScanner := []
  area_id : Option String := none
  area_name : Option String := none
  area_distance : Option ℚ := none
  area_rssi : Option ℚ := none
  area_scanner : Option String := none
deriving DecidableEq, Repr

/-- One iteration of the `for scanner in device.scanners.values()`
loop of `_refresh_area_by_min_distance`: a contact with a non-null
`rssi_distance` strictly below `max_radius` replaces the current
closest only when there is no current closest, the current closest has
a null distance (a branch that is dead in practice), or the new
distance is strictly smaller — so the first-encountered contact wins
ties. -/
def closest_scanner_step (max_radius : ℚ)
    (closest : Option BermudaDeviceScanner) (s : BermudaDeviceScanner) :
    Option BermudaDeviceScanner :=
  match s.rssi_distance with
  | none => closest
  | some sd =>
      if sd < max_radius then
        match closest with
        | none => some s
        | some c =>
            match c.rssi_distance with
            | none => some s
            | some cd => if sd < cd then some s else some c
      else closest

/-- The whole selection loop of `_refresh_area_by_min_distance`. -/
def closest_scanner_fold (max_radius : ℚ)
    (scanners : List BermudaDeviceScanner) : Option BermudaDeviceScanner :=
  scanners.foldl (closest_scanner_step max_radius) none

/-- Embedding of `_refresh_area_by_min_distance`.  The Home Assistant
area registry (an external interface) is abstracted as a partial map
from area id to area name; `async_get_area` of a null id, or an area
record without a name, both land in the placeholder branch
`"No area: " + scanner name`.  When no contact qualifies, all five
area fields are cleared to null. -/
def _refresh_area_by_min_distance (max_radius : ℚ)
    (area_reg : String → Option String) (device : BermudaDevice) :
    BermudaDevice :=
  match closest_scanner_fold max_radius device.scanners with
  | some closest =>
      { device with
        area_id := closest.area_id
        area_name := some (match closest.area_id with
          | some i =>
              match area_reg i with
              | some n => n
              | none => "No area: " ++ closest.name
          | none => "No area: " ++ closest.name)
        area_distance := closest.rssi_distance
        area_rssi := closest.rssi
        area_scanner := some closest.name }
  | none =>
      { device with
        area_id := none
        area_name := none
        area_distance := none
        area_rssi := none
        area_scanner := none }

/-- A contact qualifies when its `rssi_distance` is non-null and
strictly below `max_radius`. -/
def scanner_qualifies (max_radius : ℚ) (s : BermudaDeviceScanner) : Prop :=
  ∃ sd, s.rssi_distance = some sd ∧ sd < max_radius

/-- The specification-side selection rule of claim C5: `s` is the
first contact in iteration order achieving the minimum qualifying
`rssi_distance` — every qualifying contact before it is strictly
farther, every qualifying contact after it is no nearer. -/
def first_min_scanner (max_radius : ℚ)
    (scanners : List BermudaDeviceScanner) (s : BermudaDeviceScanner) : Prop :=
  ∃ l1 l2 sd, scanners = l1 ++ s :: l2 ∧ s.rssi_distance = some sd
    ∧ sd < max_radius
    ∧ (∀ t ∈ l1, ∀ td, t.rssi_distance = some td → td < max_radius → sd < td)
    ∧ (∀ t ∈ l2, ∀ td, t.rssi_distance = some td → td < max_radius → sd ≤ td)

theorem closest_scanner_step_cases (max_radius : ℚ)
    (acc : Option BermudaDeviceScanner) (s : BermudaDeviceScanner) :
    closest_scanner_step max_radius acc s = acc
      ∨ (closest_scanner_step max_radius acc s = some s
          ∧ scanner_qualifies max_radius s) := by
  unfold closest_scanner_step
  cases hd : s.rssi_distance with
  | none => exact Or.inl rfl
  | some sd =>
      dsimp only
      by_cases hr : sd < max_radius
      · rw [if_pos hr]
        cases acc with
        | none => exact Or.inr ⟨rfl, sd, hd, hr⟩
        | some c =>
            dsimp only
            cases hcd : c.rssi_distance with
            | none => exact Or.inr ⟨rfl, sd, hd, hr⟩
            | some cd =>
                dsimp only
                by_cases hlt : sd < cd
                · rw [if_pos hlt]
                  exact Or.inr ⟨rfl, sd, hd, hr⟩
                · rw [if_neg hlt]
                  exact Or.inl rfl
      · rw [if_neg hr]
        exact Or.inl rfl

theorem closest_scanner_fold_cases (max_radius : ℚ)
    (l : List BermudaDeviceScanner) :
    ∀ acc : Option BermudaDeviceScanner,
      l.foldl (closest_scanner_step max_radius) acc = acc
        ∨ ∃ c ∈ l, l.foldl (closest_scanner_step max_radius) acc = some c
            ∧ scanner_qualifies max_radius c := by
  induction l with
  | nil => intro acc; exact Or.inl rfl
  | cons s rest ih =>
      intro acc
      rw [List.foldl_cons]
      rcases closest_scanner_step_cases max_radius acc s with hstep | ⟨hstep, hq⟩
      · rw [hstep]
        rcases ih acc with h | ⟨c, hc, heq, hq⟩
        · exact Or.inl h
        · exact Or.inr ⟨c, List.mem_cons_of_mem s hc, heq, hq⟩
      · rw [hstep]
        rcases ih (some s) with h | ⟨c, hc, heq, hq2⟩
        · exact Or.inr ⟨s, List.mem_cons_self s rest, h, hq⟩
        · exact Or.inr ⟨c, List.mem_cons_of_mem s hc, heq, hq2⟩

theorem closest_scanner_fold_keeps (max_radius : ℚ)
    (l : List BermudaDeviceScanner) (s : BermudaDeviceScanner) (sd : ℚ)
    (hsd : s.rssi_distance = some sd)
    (hmin : ∀ t ∈ l, ∀ td, t.rssi_distance = some td → td < max_radius → sd ≤ td) :
    l.foldl (closest_scanner_step max_radius) (some s) = some s := by
  induction l with
  | nil => rfl
  | cons t rest ih =>
      rw [List.foldl_cons]
      have hstep : closest_scanner_step max_radius (some s) t = some s := by
        unfold closest_scanner_step
        cases htd : t.rssi_distance with
        | none => rfl
        | some td =>
            dsimp only
            by_cases hr : td < max_radius
            · rw [if_pos hr, hsd]
              dsimp only
              have hle : sd ≤ td :=
                hmin t (List.mem_cons_self t rest) td htd hr
              rw [if_neg (not_lt.mpr hle)]
            · rw [if_neg hr]
      rw [hstep]
      exact ih (fun t ht td htd hr =>
        hmin t (List.mem_cons_of_mem _ ht) td htd hr)

theorem closest_scanner_fold_first_min (max_radius : ℚ)
    (scanners : List BermudaDeviceScanner) (s : BermudaDeviceScanner)
    (hfm : first_min_scanner max_radius scanners s) :
    closest_scanner_fold max_radius scanners = some s := by
  obtain ⟨l1, l2, sd, heq, hsd, hr, hbefore, hafter⟩ := hfm
  unfold closest_scanner_fold
  rw [heq, List.foldl_append, List.foldl_cons]
  have hacc : closest_scanner_step max_radius
      (l1.foldl (closest_scanner_step max_radius) none) s = some s := by
    rcases closest_scanner_fold_cases max_radius l1 none with h | ⟨c, hc, hceq, cd, hcd, hcr⟩
    · rw [h]
      unfold closest_scanner_step
      rw [hsd]
      dsimp only
      rw [if_pos hr]
    · rw [hceq]
      unfold closest_scanner_step
      rw [hsd]
      dsimp only
      rw [if_pos hr, hcd]
      dsimp only
      rw [if_pos (hbefore c hc cd hcd hcr)]
  rw [hacc]
  exact closest_scanner_fold_keeps max_radius l2 s sd hsd hafter

theorem closest_scanner_fold_none (max_radius : ℚ)
    (l : List BermudaDeviceScanner)
    (h : ∀ t ∈ l, ∀ td, t.rssi_distance = some td → ¬ td < max_radius) :
    closest_scanner_fold max_radius l = none := by
  unfold closest_scanner_fold
  induction l with
  | nil => rfl
  | cons t rest ih =>
      rw [List.foldl_cons]
      have hstep : closest_scanner_step max_radius none t = none := by
        unfold closest_scanner_step
        cases htd : t.rssi_distance with
        | none => rfl
        | some td =>
            dsimp only
            rw [if_neg (h t (List.mem_cons_self t rest) td htd)]
      rw [hstep]
      exact ih (fun t ht td htd => h t (List.mem_cons_of_mem _ ht) td htd)

/-- Claim C5: for a non-scanner device, area assignment selects the
contact with the minimum `rssi_distance` strictly below `max_radius`,
ties broken in favour of the first contact in iteration order, and
copies that scanner's area, distance, rssi and name onto the device;
if no contact qualifies, all five area fields are set to null. -/
theorem C5_area_assignment (max_radius : ℚ)
    (area_reg : String → Option String) (device : BermudaDevice)
    (_hns : device.is_scanner = false) :
    ((∀ t ∈ device.scanners, ∀ td, t.rssi_distance = some td →
        ¬ td < max_radius) →
      (_refresh_area_by_min_distance max_radius area_reg device).area_id = none
        ∧ (_refresh_area_by_min_distance max_radius area_reg device).area_name = none
        ∧ (_refresh_area_by_min_distance max_radius area_reg device).area_distance = none
        ∧ (_refresh_area_by_min_distance max_radius area_reg device).area_rssi = none
        ∧ (_refresh_area_by_min_distance max_radius area_reg device).area_scanner = none)
    ∧ ∀ s, first_min_scanner max_radius device.scanners s →
        (_refresh_area_by_min_distance max_radius area_reg device).area_id = s.area_id
        ∧ (_refresh_area_by_min_distance max_radius area_reg device).area_distance
            = s.rssi_distance
        ∧ (_refresh_area_by_min_distance max_radius area_reg device).area_rssi = s.rssi
        ∧ (_refresh_area_by_min_distance max_radius area_reg device).area_scanner
            = some s.name
        ∧ (_refresh_area_by_min_distance max_radius area_reg device).area_name
            = some (match s.area_id with
                | some i => (area_reg i).getD ("No area: " ++ s.name)
                | none => "No area: " ++ s.name) := by
  constructor
  · intro h
    unfold _refresh_area_by_min_distance
    rw [closest_scanner_fold_none max_radius device.scanners h]
    exact ⟨rfl, rfl, rfl, rfl, rfl⟩
  · intro s hfm
    unfold _refresh_area_by_min_distance
    rw [closest_scanner_fold_first_min max_radius device.scanners s hfm]
    dsimp only
    refine ⟨rfl, rfl, rfl, rfl, ?_⟩
    cases hai : s.area_id with
    | none => rfl
    | some i =>
        dsimp only
        cases har : area_reg i with
        | none => rfl
        | some n => rfl

def tie_scanner_a : BermudaDeviceScanner :=
  { name := "scannerA", rssi := some (-40), rssi_distance := some 2,
    area_id := some "areaA" }

def tie_scanner_b : BermudaDeviceScanner :=
  { name := "scannerB", rssi := some (-45), rssi_distance := some 2,
    area_id := some "areaB" }

def tie_device : BermudaDevice :=
  { address := "cc:cc:cc:cc:cc:cc", scanners := [tie_scanner_a, tie_scanner_b] }

def far_scanner : BermudaDeviceScanner :=
  { name := "far", rssi := some (-90), rssi_distance := some 50,
    area_id := some "areaC" }

def far_device : BermudaDevice :=
  { address := "dd:dd:dd:dd:dd:dd", area_id := some "stale",
    scanners := [far_scanner] }

def witness_area_reg : String → Option String :=
  fun i => if i = "areaA" then some "Kitchen" else none

/-- Witness for C5: a device whose only contact is outside the radius
gets all area fields cleared; a device with two contacts at the equal
minimal distance 2 gets the area of the first-iterated scanner
("scannerA", resolving to area name "Kitchen"). -/
theorem C5_witness :
    ((_refresh_area_by_min_distance 4 witness_area_reg far_device).area_id = none
      ∧ (_refresh_area_by_min_distance 4 witness_area_reg far_device).area_name = none
      ∧ (_refresh_area_by_min_distance 4 witness_area_reg far_device).area_distance = none
      ∧ (_refresh_area_by_min_distance 4 witness_area_reg far_device).area_rssi = none
      ∧ (_refresh_area_by_min_distance 4 witness_area_reg far_device).area_scanner = none)
    ∧ ((_refresh_area_by_min_distance 4 witness_area_reg tie_device).area_id
        = some "areaA"
      ∧ (_refresh_area_by_min_distance 4 witness_area_reg tie_device).area_distance
        = some 2
      ∧ (_refresh_area_by_min_distance 4 witness_area_reg tie_device).area_rssi
        = some (-40)
      ∧ (_refresh_area_by_min_distance 4 witness_area_reg tie_device).area_scanner
        = some "scannerA"
      ∧ (_refresh_area_by_min_distance 4 witness_area_reg tie_device).area_name
        = some "Kitchen") := by
  constructor
  · refine (C5_area_assignment 4 witness_area_reg far_device rfl).1 ?_
    intro t ht td htd
    simp only [far_device] at ht
    rw [List.mem_singleton] at ht
    subst ht
    have h2 : some (50 : ℚ) = some td := htd
    rw [Option.some_inj] at h2
    subst h2
    norm_num
  · have hfm : first_min_scanner 4 tie_device.scanners tie_scanner_a := by
      refine ⟨[], [tie_scanner_b], 2, rfl, rfl, by norm_num, by simp, ?_⟩
      intro t ht td htd hlt
      rw [List.mem_singleton] at ht
      subst ht
      have h2 : some (2 : ℚ) = some td := htd
      rw [Option.some_inj] at h2
      subst h2
      norm_num
    have h := (C5_area_assignment 4 witness_area_reg tie_device rfl).2
      tie_scanner_a hfm
    exact ⟨h.1, h.2.1, h.2.2.1, h.2.2.2.1, h.2.2.2.2⟩

/-! ## Device-table key normalization (`coordinator.py`)

`_get_device` and `_get_or_create_device` key the device table by
`format_mac(address).lower()`.  `format_mac` comes from Home
Assistant's device-registry helpers, which are not part of the sources;
modelled from the spec and its call sites: it normalizes the three
recognised MAC shapes (colon-separated 17 chars, dash-separated 17
chars, dot-separated 14 chars, or 12 bare hex digits) to the canonical
lower-case colon-separated form and returns anything else unchanged.
Python `str.lower()` is modelled on the basic-latin range (`Char.toLower`),
which covers every character of a MAC address.  The colon-joining of
`format_mac` is only ever reached with exactly 12 characters (it is
guarded by a length test), so it is modelled by a 12-element pattern. -/


theorem char_toNat_ofNat_of_valid {n : Nat} (h : n.isValidChar) :
    (Char.ofNat n).toNat = n := by
  unfold Char.ofNat
  rw [dif_pos h]
  rfl

theorem toLower_toNat_of_upper (c : Char) (h : 65 ≤ c.toNat ∧ c.toNat ≤ 90) :
    (Char.toLower c).toNat = c.toNat + 32 := by
  unfold Char.toLower
  rw [if_pos ⟨h.1, h.2⟩]
  exact char_toNat_ofNat_of_valid (Or.inl (by omega))

theorem toLower_eq_self_of_not_upper (c : Char) (h : ¬ (65 ≤ c.toNat ∧ c.toNat ≤ 90)) :
    Char.toLower c = c := by
  unfold Char.toLower
  rw [if_neg ?_]
  intro hc
  exact h ⟨hc.1, hc.2⟩

theorem toLower_sep_iff (c : Char) (sep : Char) (hsep : sep.toNat < 97) 
    (hsep2 : ¬ (65 ≤ sep.toNat ∧ sep.toNat ≤ 90)) :
    Char.toLower c = sep ↔ c = sep := by
  constructor
  · intro h
    by_cases hu : 65 ≤ c.toNat ∧ c.toNat ≤ 90
    · exfalso
      have h1 : (Char.toLower c).toNat = c.toNat + 32 := toLower_toNat_of_upper c hu
      rw [h] at h1
      omega
    · rw [toLower_eq_self_of_not_upper c hu] at h
      exact h
  · intro h
    subst h
    exact toLower_eq_self_of_not_upper c hsep2

/-- Python `str.lower()` (basic-latin range). -/
def str_lower (s : String) : String := String.mk (s.data.map Char.toLower)

/-- The pair-joining step of `format_mac` (reached only for exactly 12
characters). -/
def insert_colons (l : List Char) : List Char :=
  match l with
  | [a, b, c, d, e, f, g, h, i, j, k, m] =>
      [a, b, ':', c, d, ':', e, f, ':', g, h, ':', i, j, ':', k, m]
  | l => l

/-- Modelled from the spec: Home Assistant's `format_mac` is not in
the sources; every lookup and insertion key of the device table is
`format_mac(address).lower()`, with `format_mac` normalizing the
recognised MAC formats to lower-case colon-separated form and leaving
other strings unchanged. -/
def format_mac (mac : String) : String :=
  let to_test := mac.data
  if to_test.length = 17 ∧ to_test.count ':' = 5 then
    String.mk (to_test.map Char.toLower)
  else
    let t :=
      if to_test.length = 17 ∧ to_test.count '-' = 5 then
        to_test.filter (fun c => c != '-')
      else if to_test.length = 14 ∧ to_test.count '.' = 2 then
        to_test.filter (fun c => c != '.')
      else to_test
    if t.length = 12 then String.mk ((insert_colons t).map Char.toLower)
    else mac

example : format_mac "AA-BB-CC-DD-EE-FF" = "aa:bb:cc:dd:ee:ff" := by decide
example : format_mac "AA:BB:CC:DD:EE:FF" = "aa:bb:cc:dd:ee:ff" := by decide
example : format_mac "aabb.ccdd.eeff" = "aa:bb:cc:dd:ee:ff" := by decide
example : format_mac "hello" = "hello" := by decide

theorem beq_toLower_sep (c sep : Char) (hsep : sep.toNat < 97)
    (hsep2 : ¬ (65 ≤ sep.toNat ∧ sep.toNat ≤ 90)) :
    (Char.toLower c == sep) = (c == sep) := by
  by_cases hc : c = sep
  · subst hc
    rw [toLower_eq_self_of_not_upper _ hsep2]
  · have hne : Char.toLower c ≠ sep :=
      fun he => hc ((toLower_sep_iff c sep hsep hsep2).1 he)
    simp [hne, hc]

theorem count_map_toLower (l : List Char) (sep : Char) (hsep : sep.toNat < 97)
    (hsep2 : ¬ (65 ≤ sep.toNat ∧ sep.toNat ≤ 90)) :
    (l.map Char.toLower).count sep = l.count sep := by
  induction l with
  | nil => rfl
  | cons c t ih =>
      simp only [List.map_cons, List.count_cons, ih,
        beq_toLower_sep c sep hsep hsep2]

theorem filter_map_toLower (l : List Char) (sep : Char) (hsep : sep.toNat < 97)
    (hsep2 : ¬ (65 ≤ sep.toNat ∧ sep.toNat ≤ 90)) :
    (l.filter (fun c => c != sep)).map Char.toLower
      = (l.map Char.toLower).filter (fun c => c != sep) := by
  induction l with
  | nil => rfl
  | cons c t ih =>
      rw [List.map_cons]
      by_cases hc : c = sep
      · subst hc
        rw [List.filter_cons_of_neg (by simp),
          List.filter_cons_of_neg (by
            rw [toLower_eq_self_of_not_upper _ hsep2]
            simp)]
        exact ih
      · rw [List.filter_cons_of_pos (by simp [hc]),
          List.filter_cons_of_pos (by
            have hne : Char.toLower c ≠ sep :=
              fun he => hc ((toLower_sep_iff c sep hsep hsep2).1 he)
            simp [hne])]
        rw [List.map_cons, ih]

theorem insert_colons_map_toLower (l : List Char) :
    insert_colons (l.map Char.toLower) = (insert_colons l).map Char.toLower := by
  match l with
  | [] => rfl
  | [_] => rfl
  | [_, _] => rfl
  | [_, _, _] => rfl
  | [_, _, _, _] => rfl
  | [_, _, _, _, _] => rfl
  | [_, _, _, _, _, _] => rfl
  | [_, _, _, _, _, _, _] => rfl
  | [_, _, _, _, _, _, _, _] => rfl
  | [_, _, _, _, _, _, _, _, _] => rfl
  | [_, _, _, _, _, _, _, _, _, _] => rfl
  | [_, _, _, _, _, _, _, _, _, _, _] => rfl
  | [_, _, _, _, _, _, _, _, _, _, _, _] => rfl
  | _ :: _ :: _ :: _ :: _ :: _ :: _ :: _ :: _ :: _ :: _ :: _ :: _ :: _ => rfl

theorem format_mac_case_insensitive (a b : String)
    (h : str_lower a = str_lower b) :
    str_lower (format_mac a) = str_lower (format_mac b) := by
  have hdata : a.data.map Char.toLower = b.data.map Char.toLower :=
    congrArg String.data h
  have hlen : a.data.length = b.data.length := by
    have := congrArg List.length hdata
    simpa using this
  have hcolon : a.data.count ':' = b.data.count ':' := by
    rw [← count_map_toLower a.data ':' (by decide) (by decide),
      ← count_map_toLower b.data ':' (by decide) (by decide), hdata]
  have hdash : a.data.count '-' = b.data.count '-' := by
    rw [← count_map_toLower a.data '-' (by decide) (by decide),
      ← count_map_toLower b.data '-' (by decide) (by decide), hdata]
  have hdot : a.data.count '.' = b.data.count '.' := by
    rw [← count_map_toLower a.data '.' (by decide) (by decide),
      ← count_map_toLower b.data '.' (by decide) (by decide), hdata]
  simp only [format_mac]
  by_cases h1 : a.data.length = 17 ∧ a.data.count ':' = 5
  · have h1b : b.data.length = 17 ∧ b.data.count ':' = 5 := by
      rw [← hlen, ← hcolon]; exact h1
    rw [if_pos h1, if_pos h1b, hdata]
  · have h1b : ¬ (b.data.length = 17 ∧ b.data.count ':' = 5) := by
      rw [← hlen, ← hcolon]; exact h1
    rw [if_neg h1, if_neg h1b]
    by_cases h2 : a.data.length = 17 ∧ a.data.count '-' = 5
    · have h2b : b.data.length = 17 ∧ b.data.count '-' = 5 := by
        rw [← hlen, ← hdash]; exact h2
      rw [if_pos h2, if_pos h2b]
      have hfil : (a.data.filter (fun c => c != '-')).map Char.toLower
          = (b.data.filter (fun c => c != '-')).map Char.toLower := by
        rw [filter_map_toLower _ _ (by decide) (by decide),
          filter_map_toLower _ _ (by decide) (by decide), hdata]
      have hflen : (a.data.filter (fun c => c != '-')).length
          = (b.data.filter (fun c => c != '-')).length := by
        have := congrArg List.length hfil
        simpa using this
      by_cases h3 : (a.data.filter (fun c => c != '-')).length = 12
      · have h3b : (b.data.filter (fun c => c != '-')).length = 12 := by
          rw [← hflen]; exact h3
        have hic : (insert_colons (a.data.filter (fun c => c != '-'))).map Char.toLower
            = (insert_colons (b.data.filter (fun c => c != '-'))).map Char.toLower := by
          rw [← insert_colons_map_toLower, ← insert_colons_map_toLower, hfil]
        rw [if_pos h3, if_pos h3b, hic]
      · have h3b : ¬ (b.data.filter (fun c => c != '-')).length = 12 := by
          rw [← hflen]; exact h3
        rw [if_neg h3, if_neg h3b]
        exact h
    · have h2b : ¬ (b.data.length = 17 ∧ b.data.count '-' = 5) := by
        rw [← hlen, ← hdash]; exact h2
      rw [if_neg h2, if_neg h2b]
      by_cases h4 : a.data.length = 14 ∧ a.data.count '.' = 2
      · have h4b : b.data.length = 14 ∧ b.data.count '.' = 2 := by
          rw [← hlen, ← hdot]; exact h4
        rw [if_pos h4, if_pos h4b]
        have hfil : (a.data.filter (fun c => c != '.')).map Char.toLower
            = (b.data.filter (fun c => c != '.')).map Char.toLower := by
          rw [filter_map_toLower _ _ (by decide) (by decide),
            filter_map_toLower _ _ (by decide) (by decide), hdata]
        have hflen : (a.data.filter (fun c => c != '.')).length
            = (b.data.filter (fun c => c != '.')).length := by
          have := congrArg List.length hfil
          simpa using this
        by_cases h5 : (a.data.filter (fun c => c != '.')).length = 12
        · have h5b : (b.data.filter (fun c => c != '.')).length = 12 := by
            rw [← hflen]; exact h5
          have hic : (insert_colons (a.data.filter (fun c => c != '.'))).map Char.toLower
              = (insert_colons (b.data.filter (fun c => c != '.'))).map Char.toLower := by
            rw [← insert_colons_map_toLower, ← insert_colons_map_toLower, hfil]
          rw [if_pos h5, if_pos h5b, hic]
        · have h5b : ¬ (b.data.filter (fun c => c != '.')).length = 12 := by
            rw [← hflen]; exact h5
          rw [if_neg h5, if_neg h5b]
          exact h
      · have h4b : ¬ (b.data.length = 14 ∧ b.data.count '.' = 2) := by
          rw [← hlen, ← hdot]; exact h4
        rw [if_neg h4, if_neg h4b]
        by_cases h6 : a.data.length = 12
        · have h6b : b.data.length = 12 := by rw [← hlen]; exact h6
          have hic : (insert_colons a.data).map Char.toLower
              = (insert_colons b.data).map Char.toLower := by
            rw [← insert_colons_map_toLower, ← insert_colons_map_toLower, hdata]
          rw [if_pos h6, if_pos h6b, hic]
        · have h6b : ¬ b.data.length = 12 := by rw [← hlen]; exact h6
          rw [if_neg h6, if_neg h6b]
          exact h

/-- Embedding of `_get_device`: look up the normalized key. -/
def _get_device (devices : List (String × BermudaDevice)) (address : String) :
    Option BermudaDevice :=
  devices.lookup (str_lower (format_mac address))

/-- Embedding of `_get_or_create_device`: return the stored record for
the normalized key, creating (and storing) a fresh record keyed and
addressed by the normalized MAC when none exists. -/
def _get_or_create_device (devices : List (String × BermudaDevice))
    (address : String) : List (String × BermudaDevice) × BermudaDevice :=
  match _get_device devices address with
  | some device => (devices, device)
  | none =>
      let mac := str_lower (format_mac address)
      let device : BermudaDevice := { address := mac, unique_id := mac }
      (alist_set devices mac device, device)

/-- Claim C10: `_get_or_create_device` is idempotent and
case-insensitive.  Addresses that agree after lowercasing produce the
same table key, and a second call with any address producing the same
key (any letter case or recognised MAC formatting) returns the very
same stored record and leaves the device table unchanged — so the
table never holds two records for the same MAC differing only in
case. -/
theorem C10_get_or_create_device_normalized :
    (∀ a b : String, str_lower a = str_lower b →
      str_lower (format_mac a) = str_lower (format_mac b))
    ∧ ∀ (devices : List (String × BermudaDevice)) (a b : String),
        str_lower (format_mac a) = str_lower (format_mac b) →
        _get_or_create_device (_get_or_create_device devices a).1 b
          = ((_get_or_create_device devices a).1,
              (_get_or_create_device devices a).2) := by
  refine ⟨fun a b h => format_mac_case_insensitive a b h, ?_⟩
  intro devices a b hkey
  cases hl : devices.lookup (str_lower (format_mac a)) with
  | some d =>
      simp only [_get_or_create_device, _get_device, ← hkey, hl]
  | none =>
      simp only [_get_or_create_device, _get_device, ← hkey, hl]
      rw [lookup_alist_set_self]

/-- Witness for C10: an upper-case and a mixed-case colon form agree
after lowercasing and get the same key; creating a device from the
upper-case colon form and then calling again with the dash form
returns the same record and does not grow the table. -/
theorem C10_witness :
    str_lower (format_mac "AA:BB:CC:DD:EE:FF")
        = str_lower (format_mac "aa:bb:CC:dd:ee:ff")
      ∧ _get_or_create_device
            (_get_or_create_device [] "AA:BB:CC:DD:EE:FF").1 "aa-bb-cc-dd-ee-ff"
          = ((_get_or_create_device [] "AA:BB:CC:DD:EE:FF").1,
              (_get_or_create_device [] "AA:BB:CC:DD:EE:FF").2) :=
  ⟨C10_get_or_create_device_normalized.1 "AA:BB:CC:DD:EE:FF" "aa:bb:CC:dd:ee:ff"
      (by decide),
    C10_get_or_create_device_normalized.2 [] "AA:BB:CC:DD:EE:FF"
      "aa-bb-cc-dd-ee-ff" (by decide)⟩

/-! ## Pruning (`coordinator.py`, `prune_devices`)

The device table is a Python dict in insertion order, modelled as an
association list with unique keys.  The pruning windows
`PRUNE_TIME_IRK`, `PRUNE_TIME_DEFAULT` and the cap `PRUNE_MAX_COUNT`
live in `const.py`, which is not part of the sources, so the embedding
is parametrised by them, as it is by the current monotonic time. -/


/-- Lexicographic comparison of (timestamp, address) pairs, as Python
compares tuples in `sorted`. -/
def pyle (a b : ℚ × String) : Prop :=
  a.1 < b.1 ∨ (a.1 = b.1 ∧ a.2 ≤ b.2)

instance (a b : ℚ × String) : Decidable (pyle a b) := by
  unfold pyle
  infer_instance

theorem pyle_total (a b : ℚ × String) : pyle a b ∨ pyle b a := by
  unfold pyle
  rcases lt_trichotomy a.1 b.1 with h | h | h
  · exact Or.inl (Or.inl h)
  · rcases le_total a.2 b.2 with h2 | h2
    · exact Or.inl (Or.inr ⟨h, h2⟩)
    · exact Or.inr (Or.inr ⟨h.symm, h2⟩)
  · exact Or.inr (Or.inl h)

theorem pyle_trans {a b c : ℚ × String} (h1 : pyle a b) (h2 : pyle b c) :
    pyle a c := by
  unfold pyle at h1 h2 ⊢
  rcases h1 with h1 | ⟨h1, h1s⟩ <;> rcases h2 with h2 | ⟨h2, h2s⟩
  · exact Or.inl (lt_trans h1 h2)
  · exact Or.inl (h2 ▸ h1)
  · exact Or.inl (h1 ▸ h2)
  · exact Or.inr ⟨h1.trans h2, le_trans h1s h2s⟩

/-- One insertion step of an insertion sort on (timestamp, address)
pairs.  Python's `sorted` is modelled by insertion sort: on lists whose
elements are pairwise distinct (here the addresses are unique dict
keys) every sorting algorithm produces the same, unique sorted list. -/
def insert_pair (x : ℚ × String) : List (ℚ × String) → List (ℚ × String)
  | [] => [x]
  | y :: rest => if pyle x y then x :: y :: rest else y :: insert_pair x rest

/-- Model of Python `sorted` on (timestamp, address) pairs. -/
def sorted_pairs (l : List (ℚ × String)) : List (ℚ × String) :=
  l.foldr insert_pair []

theorem insert_pair_perm (x : ℚ × String) (l : List (ℚ × String)) :
    (insert_pair x l).Perm (x :: l) := by
  induction l with
  | nil => exact List.Perm.refl _
  | cons y rest ih =>
      unfold insert_pair
      by_cases h : pyle x y
      · rw [if_pos h]
      · rw [if_neg h]
        exact (List.Perm.cons y ih).trans (List.Perm.swap x y rest)

theorem sorted_pairs_perm (l : List (ℚ × String)) :
    (sorted_pairs l).Perm l := by
  induction l with
  | nil => exact List.Perm.refl _
  | cons x rest ih =>
      unfold sorted_pairs
      rw [List.foldr_cons]
      exact (insert_pair_perm _ _).trans (List.Perm.cons x ih)

theorem insert_pair_pairwise (x : ℚ × String) (l : List (ℚ × String))
    (h : l.Pairwise pyle) : (insert_pair x l).Pairwise pyle := by
  induction l with
  | nil => simp [insert_pair]
  | cons y rest ih =>
      unfold insert_pair
      rcases List.pairwise_cons.mp h with ⟨hy, hrest⟩
      by_cases hxy : pyle x y
      · rw [if_pos hxy]
        refine List.pairwise_cons.mpr ⟨?_, h⟩
        intro z hz
        rcases List.mem_cons.mp hz with hz | hz
        · exact hz ▸ hxy
        · exact pyle_trans hxy (hy z hz)
      · rw [if_neg hxy]
        have hyx : pyle y x := (pyle_total x y).resolve_left hxy
        refine List.pairwise_cons.mpr ⟨?_, ih hrest⟩
        intro z hz
        have hz2 : z ∈ x :: rest := (insert_pair_perm x rest).mem_iff.mp hz
        rcases List.mem_cons.mp hz2 with hz2 | hz2
        · exact hz2 ▸ hyx
        · exact hy z hz2

theorem sorted_pairs_pairwise (l : List (ℚ × String)) :
    (sorted_pairs l).Pairwise pyle := by
  induction l with
  | nil => exact List.Pairwise.nil
  | cons x rest ih =>
      unfold sorted_pairs
      rw [List.foldr_cons]
      exact insert_pair_pairwise x _ ih

/-- In a sorted list, any element not below an element of a prefix
also belongs to that prefix. -/
theorem mem_take_of_pairwise {l : List (ℚ × String)} {n : ℕ}
    {x y : ℚ × String} (hp : l.Pairwise pyle) (hx : x ∈ l)
    (hy : y ∈ l.take n) (hno : ¬ pyle y x) : x ∈ l.take n := by
  induction l generalizing n with
  | nil => simp at hx
  | cons a t ih =>
      match n with
      | 0 => simp at hy
      | m + 1 =>
          rw [List.take_succ_cons] at hy ⊢
          rcases List.mem_cons.mp hx with hxa | hxt
          · exact hxa ▸ List.mem_cons_self a _
          · rcases List.pairwise_cons.mp hp with ⟨ha, ht⟩
            rcases List.mem_cons.mp hy with hya | hyt
            · exact absurd (hya ▸ ha x hxt) hno
            · exact List.mem_cons_of_mem a (ih ht hxt hyt)

/-- The set `metadevice_source_primos`: the current live source
(`beacon_sources[0]`) of every tracked metadevice. -/
def metadevice_primos (metas : List BermudaDevice) : List String :=
  metas.filterMap (fun m => m.beacon_sources.head?)

/-- The eligibility condition of the pruning loop: not the live source
of a metadevice, no sensor wanted, not a scanner, seen at least once,
and a genuine MAC-derived address. -/
def prune_eligible (primos : List String) (kd : String × BermudaDevice) : Bool :=
  !(primos.contains kd.1) && !kd.2.create_sensor && !kd.2.is_scanner
    && decide (0 < kd.2.last_seen)
    && !(kd.2.address_type == AddrType.not_mac48)

/-- The staleness test of the pruning loop: private-resolvable
addresses compare against the short IRK window, everything else against
the default window. -/
def prune_stale (irk_window default_window now : ℚ)
    (kd : String × BermudaDevice) : Bool :=
  if kd.2.address_type == AddrType.private_resolvable then
    decide (kd.2.last_seen < now - irk_window)
  else
    decide (kd.2.last_seen < now - default_window)

/-- The `prune_list` accumulated by the first phase of
`prune_devices`: the keys of all eligible stale devices, in table
order. -/
def prune_stale_keys (irk_window default_window now : ℚ) (primos : List String)
    (devices : List (String × BermudaDevice)) : List String :=
  (devices.filter (fun kd =>
    prune_eligible primos kd
      && prune_stale irk_window default_window now kd)).map Prod.fst

/-- The `prunable_stamps` dict: `last_seen` stamp and key of every
eligible but not (yet) stale device. -/
def prunable_stamps (irk_window default_window now : ℚ) (primos : List String)
    (devices : List (String × BermudaDevice)) : List (ℚ × String) :=
  (devices.filter (fun kd =>
    prune_eligible primos kd
      && !(prune_stale irk_window default_window now kd))).map
    (fun kd => (kd.2.last_seen, kd.1))

/-- The final prune list: all eligible stale keys, plus — when the
table would still exceed `PRUNE_MAX_COUNT` — the oldest surplus of the
eligible-but-fresh devices, from `sorted((stamp, address))`. -/
def prune_list (irk_window default_window : ℚ) (max_count : ℕ) (now : ℚ)
    (primos : List String) (devices : List (String × BermudaDevice)) :
    List String :=
  let stale := prune_stale_keys irk_window default_window now primos devices
  let quota : ℤ := (devices.length : ℤ) - stale.length - max_count
  if 0 < quota then
    stale ++ ((sorted_pairs
      (prunable_stamps irk_window default_window now primos devices)).take
        quota.toNat).map Prod.snd
  else stale

/-- Embedding of `prune_devices`: delete every entry whose key landed
on the prune list. -/
def prune_devices (irk_window default_window : ℚ) (max_count : ℕ) (now : ℚ)
    (metas : List BermudaDevice) (devices : List (String × BermudaDevice)) :
    List (String × BermudaDevice) :=
  devices.filter (fun kd =>
    !((prune_list irk_window default_window max_count now
        (metadevice_primos metas) devices).contains kd.1))

theorem assoc_unique {β : Type} {l : List (String × β)}
    (hnd : (l.map Prod.fst).Nodup) {k : String} {d d' : β}
    (h1 : (k, d) ∈ l) (h2 : (k, d') ∈ l) : d = d' := by
  induction l with
  | nil => simp at h1
  | cons kv t ih =>
      rw [List.map_cons, List.nodup_cons] at hnd
      rcases List.mem_cons.mp h1 with h1 | h1 <;>
        rcases List.mem_cons.mp h2 with h2 | h2
      · rw [← h2] at h1
        exact congrArg Prod.snd h1
      · exfalso
        apply hnd.1
        rw [← h1]
        exact List.mem_map.mpr ⟨(k, d'), h2, rfl⟩
      · exfalso
        apply hnd.1
        rw [← h2]
        exact List.mem_map.mpr ⟨(k, d), h1, rfl⟩
      · exact ih hnd.2 h1 h2

theorem length_filter_contains (keys ks : List String) (hkeys : keys.Nodup)
    (hks : ks.Nodup) (hsub : ∀ k ∈ ks, k ∈ keys) :
    (keys.filter (fun k => ks.contains k)).length = ks.length := by
  refine List.Perm.length_eq ?_
  refine (List.perm_ext_iff_of_nodup (hkeys.filter _) hks).mpr ?_
  intro a
  rw [List.mem_filter]
  constructor
  · intro h
    simpa using h.2
  · intro ha
    exact ⟨hsub a ha, by simpa using ha⟩

theorem length_filter_not_contains {β : Type} (l : List (String × β))
    (ks : List String) (hnd : (l.map Prod.fst).Nodup) (hks : ks.Nodup)
    (hsub : ∀ k ∈ ks, k ∈ l.map Prod.fst) :
    (l.filter (fun kd => !(ks.contains kd.1))).length = l.length - ks.length := by
  have hcong : ∀ kd : String × β, (!(ks.contains kd.1))
      = (decide ¬(ks.contains kd.1 = true)) := by
    intro kd
    cases h : ks.contains kd.1 <;> simp [h]
  have htot := List.length_eq_countP_add_countP (fun kd => ks.contains kd.1) l
  rw [List.countP_eq_length_filter, List.countP_eq_length_filter] at htot
  have hin : (l.filter (fun kd => ks.contains kd.1)).length = ks.length := by
    have hmapfil : (l.map Prod.fst).filter (fun k => ks.contains k)
        = (l.filter (fun kd => ks.contains kd.1)).map Prod.fst :=
      List.filter_map Prod.fst l
    have h2 := length_filter_contains (l.map Prod.fst) ks hnd hks hsub
    rw [hmapfil] at h2
    rw [← h2, List.length_map]
  rw [List.filter_congr (fun kd _ => hcong kd)]
  omega

theorem mem_prune_stale_keys_iff (irk_window default_window now : ℚ)
    (primos : List String) (devices : List (String × BermudaDevice))
    (k : String) :
    k ∈ prune_stale_keys irk_window default_window now primos devices
      ↔ ∃ d, (k, d) ∈ devices ∧ prune_eligible primos (k, d) = true
          ∧ prune_stale irk_window default_window now (k, d) = true := by
  unfold prune_stale_keys
  constructor
  · intro h
    rcases List.mem_map.mp h with ⟨kd, hkd, hfst⟩
    rcases List.mem_filter.mp hkd with ⟨hmem, hcond⟩
    rw [Bool.and_eq_true] at hcond
    subst hfst
    exact ⟨kd.2, hmem, hcond.1, hcond.2⟩
  · intro ⟨d, hmem, he, hs⟩
    exact List.mem_map.mpr ⟨(k, d),
      List.mem_filter.mpr ⟨hmem, by rw [Bool.and_eq_true]; exact ⟨he, hs⟩⟩, rfl⟩

theorem mem_prunable_stamps_iff (irk_window default_window now : ℚ)
    (primos : List String) (devices : List (String × BermudaDevice))
    (s : ℚ) (k : String) :
    (s, k) ∈ prunable_stamps irk_window default_window now primos devices
      ↔ ∃ d, (k, d) ∈ devices ∧ prune_eligible primos (k, d) = true
          ∧ prune_stale irk_window default_window now (k, d) = false
          ∧ s = d.last_seen := by
  unfold prunable_stamps
  constructor
  · intro h
    rcases List.mem_map.mp h with ⟨kd, hkd, hpair⟩
    rcases List.mem_filter.mp hkd with ⟨hmem, hcond⟩
    rw [Bool.and_eq_true, Bool.not_eq_true'] at hcond
    rcases Prod.mk.injEq .. ▸ hpair with ⟨hs, hk⟩
    subst hk
    exact ⟨kd.2, hmem, hcond.1, hcond.2, hs.symm⟩
  · intro ⟨d, hmem, he, hs, hsl⟩
    refine List.mem_map.mpr ⟨(k, d), List.mem_filter.mpr ⟨hmem, ?_⟩, by rw [hsl]⟩
    rw [Bool.and_eq_true, Bool.not_eq_true']
    exact ⟨he, hs⟩

theorem mem_prune_list_eligible (irk_window default_window : ℚ)
    (max_count : ℕ) (now : ℚ) (primos : List String)
    (devices : List (String × BermudaDevice)) (k : String)
    (h : k ∈ prune_list irk_window default_window max_count now primos devices) :
    ∃ d, (k, d) ∈ devices ∧ prune_eligible primos (k, d) = true := by
  unfold prune_list at h
  by_cases hq : (0 : ℤ) < (devices.length : ℤ)
      - (prune_stale_keys irk_window default_window now primos devices).length
      - max_count
  · rw [if_pos hq] at h
    rcases List.mem_append.mp h with h | h
    · rcases (mem_prune_stale_keys_iff _ _ _ _ _ _).mp h with ⟨d, hd, he, _⟩
      exact ⟨d, hd, he⟩
    · rcases List.mem_map.mp h with ⟨p, hp, hpk⟩
      have hp2 : p ∈ sorted_pairs (prunable_stamps irk_window default_window
          now primos devices) := List.mem_of_mem_take hp
      have hp3 : p ∈ prunable_stamps irk_window default_window now primos
          devices := (sorted_pairs_perm _).mem_iff.mp hp2
      have hp4 : (p.1, k) ∈ prunable_stamps irk_window default_window now
          primos devices := by
        rw [show (p.1, k) = p from Prod.ext rfl hpk.symm]
        exact hp3
      rcases (mem_prunable_stamps_iff _ _ _ _ _ _ _).mp hp4 with ⟨d, hd, he, _, _⟩
      exact ⟨d, hd, he⟩
  · rw [if_neg hq] at h
    rcases (mem_prune_stale_keys_iff _ _ _ _ _ _).mp h with ⟨d, hd, he, _⟩
    exact ⟨d, hd, he⟩

theorem prune_stale_keys_subset_prune_list (irk_window default_window : ℚ)
    (max_count : ℕ) (now : ℚ) (primos : List String)
    (devices : List (String × BermudaDevice)) (k : String)
    (h : k ∈ prune_stale_keys irk_window default_window now primos devices) :
    k ∈ prune_list irk_window default_window max_count now primos devices := by
  unfold prune_list
  by_cases hq : (0 : ℤ) < (devices.length : ℤ)
      - (prune_stale_keys irk_window default_window now primos devices).length
      - max_count
  · rw [if_pos hq]
    exact List.mem_append_left _ h
  · rw [if_neg hq]
    exact h

theorem mem_prune_devices_iff (irk_window default_window : ℚ)
    (max_count : ℕ) (now : ℚ) (metas : List BermudaDevice)
    (devices : List (String × BermudaDevice)) (kd : String × BermudaDevice) :
    kd ∈ prune_devices irk_window default_window max_count now metas devices
      ↔ kd ∈ devices ∧ kd.1 ∉ prune_list irk_window default_window max_count
          now (metadevice_primos metas) devices := by
  unfold prune_devices
  rw [List.mem_filter]
  simp

theorem prune_removes_exactly_abc (irk_window default_window : ℚ)
    (max_count : ℕ) (now : ℚ) (metas : List BermudaDevice)
    (devices : List (String × BermudaDevice))
    (hnd : (devices.map Prod.fst).Nodup) :
    (∀ kd ∈ devices,
      prune_eligible (metadevice_primos metas) kd = false →
      kd ∈ prune_devices irk_window default_window max_count now metas devices)
    ∧ (∀ kd ∈ devices,
      prune_eligible (metadevice_primos metas) kd = true →
      prune_stale irk_window default_window now kd = true →
      kd ∉ prune_devices irk_window default_window max_count now metas devices)
    ∧ (∀ kd ∈ devices, ∀ kd' ∈ devices,
      prune_eligible (metadevice_primos metas) kd = true →
      prune_stale irk_window default_window now kd = false →
      prune_eligible (metadevice_primos metas) kd' = true →
      prune_stale irk_window default_window now kd' = false →
      kd ∉ prune_devices irk_window default_window max_count now metas devices →
      kd'.2.last_seen < kd.2.last_seen →
      kd' ∉ prune_devices irk_window default_window max_count now metas
        devices) := by
  refine ⟨?_, ?_, ?_⟩
  · -- (a) ineligible records are kept
    intro kd hkd hne
    rw [mem_prune_devices_iff]
    refine ⟨hkd, fun hin => ?_⟩
    rcases mem_prune_list_eligible _ _ _ _ _ _ _ hin with ⟨d, hd, he⟩
    have hdd : d = kd.2 := assoc_unique hnd hd hkd
    rw [hdd] at he
    rw [he] at hne
    exact Bool.true_eq_false.mp hne
  · -- (b) eligible and stale records are removed
    intro kd hkd he hs hmem
    rw [mem_prune_devices_iff] at hmem
    apply hmem.2
    apply prune_stale_keys_subset_prune_list
    exact (mem_prune_stale_keys_iff _ _ _ _ _ _).mpr ⟨kd.2, hkd, he, hs⟩
  · -- (c) surplus removal is oldest-first
    intro kd hkd kd' hkd' he hs he' hs' hrem hlt
    have hin : kd.1 ∈ prune_list irk_window default_window max_count now
        (metadevice_primos metas) devices := by
      by_contra hno
      exact hrem ((mem_prune_devices_iff _ _ _ _ _ _ _).mpr ⟨hkd, hno⟩)
    have hnotstale : kd.1 ∉ prune_stale_keys irk_window default_window now
        (metadevice_primos metas) devices := by
      intro hks
      rcases (mem_prune_stale_keys_iff _ _ _ _ _ _).mp hks with ⟨d, hd, _, hds⟩
      have hdd : d = kd.2 := assoc_unique hnd hd hkd
      rw [hdd] at hds
      rw [hs] at hds
      exact Bool.false_eq_true.mp hds
    unfold prune_list at hin
    by_cases hq : (0 : ℤ) < (devices.length : ℤ)
        - (prune_stale_keys irk_window default_window now
            (metadevice_primos metas) devices).length - max_count
    · rw [if_pos hq] at hin
      rcases List.mem_append.mp hin with hin | hin
      · exact absurd hin hnotstale
      · rcases List.mem_map.mp hin with ⟨p, hp, hpk⟩
        have hpeq : p = (kd.2.last_seen, kd.1) := by
          have hp3 : (p.1, kd.1) ∈ prunable_stamps irk_window default_window
              now (metadevice_primos metas) devices := by
            rw [show (p.1, kd.1) = p from Prod.ext rfl hpk.symm]
            exact (sorted_pairs_perm _).mem_iff.mp (List.mem_of_mem_take hp)
          rcases (mem_prunable_stamps_iff _ _ _ _ _ _ _).mp hp3 with
            ⟨d, hd, _, _, hsl⟩
          have hdd : d = kd.2 := assoc_unique hnd hd hkd
          refine Prod.ext ?_ hpk
          rw [hsl, hdd]
        have hpair' : (kd'.2.last_seen, kd'.1) ∈ sorted_pairs
            (prunable_stamps irk_window default_window now
              (metadevice_primos metas) devices) := by
          refine (sorted_pairs_perm _).mem_iff.mpr ?_
          exact (mem_prunable_stamps_iff _ _ _ _ _ _ _).mpr
            ⟨kd'.2, hkd', he', hs', rfl⟩
        have hno : ¬ pyle (kd.2.last_seen, kd.1) (kd'.2.last_seen, kd'.1) := by
          unfold pyle
          push_neg
          constructor
          · exact le_of_lt hlt
          · intro heq
            exact absurd heq (ne_of_gt hlt)
        have htake' : (kd'.2.last_seen, kd'.1) ∈ (sorted_pairs
            (prunable_stamps irk_window default_window now
              (metadevice_primos metas) devices)).take
            ((devices.length : ℤ)
              - (prune_stale_keys irk_window default_window now
                  (metadevice_primos metas) devices).length
              - max_count).toNat := by
          refine mem_take_of_pairwise (sorted_pairs_pairwise _) hpair' ?_ hno
          rw [← hpeq]
          exact hp
        intro hmem'
        rw [mem_prune_devices_iff] at hmem'
        apply hmem'.2
        unfold prune_list
        rw [if_pos hq]
        refine List.mem_append_right _ ?_
        exact List.mem_map.mpr ⟨(kd'.2.last_seen, kd'.1), htake', rfl⟩
    · rw [if_neg hq] at hin
      exact absurd hin hnotstale

theorem prune_devices_length (irk_window default_window : ℚ) (max_count : ℕ)
    (now : ℚ) (metas : List BermudaDevice)
    (devices : List (String × BermudaDevice))
    (hnd : (devices.map Prod.fst).Nodup) :
    (max_count + (devices.filter (fun kd =>
        prune_eligible (metadevice_primos metas) kd
          && prune_stale irk_window default_window now kd)).length
        < devices.length →
      devices.length - (devices.filter (fun kd =>
        prune_eligible (metadevice_primos metas) kd
          && prune_stale irk_window default_window now kd)).length - max_count
        ≤ (devices.filter (fun kd =>
            prune_eligible (metadevice_primos metas) kd
              && !(prune_stale irk_window default_window now kd))).length →
      (prune_devices irk_window default_window max_count now metas
        devices).length = max_count)
    ∧ (devices.length ≤ max_count + (devices.filter (fun kd =>
        prune_eligible (metadevice_primos metas) kd
          && prune_stale irk_window default_window now kd)).length →
      (prune_devices irk_window default_window max_count now metas
        devices).length
        = devices.length - (devices.filter (fun kd =>
            prune_eligible (metadevice_primos metas) kd
              && prune_stale irk_window default_window now kd)).length) := by
  have hSK : (prune_stale_keys irk_window default_window now
      (metadevice_primos metas) devices).length
      = (devices.filter (fun kd =>
          prune_eligible (metadevice_primos metas) kd
            && prune_stale irk_window default_window now kd)).length :=
    List.length_map _ _
  have hSKnd : (prune_stale_keys irk_window default_window now
      (metadevice_primos metas) devices).Nodup :=
    hnd.sublist ((List.filter_sublist _).map Prod.fst)
  have hsnd : (prunable_stamps irk_window default_window now
      (metadevice_primos metas) devices).map Prod.snd
      = (devices.filter (fun kd =>
          prune_eligible (metadevice_primos metas) kd
            && !(prune_stale irk_window default_window now kd))).map Prod.fst := by
    unfold prunable_stamps
    rw [List.map_map]
    rfl
  have hsortnd : ((sorted_pairs (prunable_stamps irk_window default_window now
      (metadevice_primos metas) devices)).map Prod.snd).Nodup := by
    refine ((sorted_pairs_perm _).map Prod.snd).symm.nodup ?_
    rw [hsnd]
    exact hnd.sublist ((List.filter_sublist _).map Prod.fst)
  have hslen : (sorted_pairs (prunable_stamps irk_window default_window now
      (metadevice_primos metas) devices)).length
      = (devices.filter (fun kd =>
          prune_eligible (metadevice_primos metas) kd
            && !(prune_stale irk_window default_window now kd))).length := by
    rw [(sorted_pairs_perm _).length_eq]
    unfold prunable_stamps
    exact List.length_map _ _
  have hPLsub : ∀ k ∈ prune_list irk_window default_window max_count now
      (metadevice_primos metas) devices, k ∈ devices.map Prod.fst := by
    intro k hk
    rcases mem_prune_list_eligible _ _ _ _ _ _ _ hk with ⟨d, hd, _⟩
    exact List.mem_map.mpr ⟨(k, d), hd, rfl⟩
  have hresult : ∀ pl_nodup : (prune_list irk_window default_window max_count
      now (metadevice_primos metas) devices).Nodup,
      (prune_devices irk_window default_window max_count now metas
        devices).length
      = devices.length - (prune_list irk_window default_window max_count now
          (metadevice_primos metas) devices).length := by
    intro plnd
    unfold prune_devices
    exact length_filter_not_contains devices _ hnd plnd hPLsub
  constructor
  · intro hlt hP
    have hq : (0 : ℤ) < (devices.length : ℤ)
        - (prune_stale_keys irk_window default_window now
            (metadevice_primos metas) devices).length - max_count := by
      rw [hSK]
      omega
    have hPL : prune_list irk_window default_window max_count now
        (metadevice_primos metas) devices
        = prune_stale_keys irk_window default_window now
            (metadevice_primos metas) devices
          ++ ((sorted_pairs (prunable_stamps irk_window default_window now
              (metadevice_primos metas) devices)).take
                ((devices.length : ℤ)
                  - (prune_stale_keys irk_window default_window now
                      (metadevice_primos metas) devices).length
                  - max_count).toNat).map Prod.snd := by
      unfold prune_list
      rw [if_pos hq]
    have hTnd : (((sorted_pairs (prunable_stamps irk_window default_window now
        (metadevice_primos metas) devices)).take
          ((devices.length : ℤ)
            - (prune_stale_keys irk_window default_window now
                (metadevice_primos metas) devices).length
            - max_count).toNat).map Prod.snd).Nodup :=
      hsortnd.sublist ((List.take_sublist _ _).map Prod.snd)
    have hdisj : List.Disjoint (prune_stale_keys irk_window default_window now
        (metadevice_primos metas) devices)
        (((sorted_pairs (prunable_stamps irk_window default_window now
            (metadevice_primos metas) devices)).take
              ((devices.length : ℤ)
                - (prune_stale_keys irk_window default_window now
                    (metadevice_primos metas) devices).length
                - max_count).toNat).map Prod.snd) := by
      intro k hk1 hk2
      rcases (mem_prune_stale_keys_iff _ _ _ _ _ _).mp hk1 with ⟨d1, hd1, _, hs1⟩
      rcases List.mem_map.mp hk2 with ⟨p, hp, hpk⟩
      have hp3 : (p.1, k) ∈ prunable_stamps irk_window default_window now
          (metadevice_primos metas) devices := by
        rw [show (p.1, k) = p from Prod.ext rfl hpk.symm]
        exact (sorted_pairs_perm _).mem_iff.mp (List.mem_of_mem_take hp)
      rcases (mem_prunable_stamps_iff _ _ _ _ _ _ _).mp hp3 with
        ⟨d2, hd2, _, hs2, _⟩
      have hdd : d1 = d2 := assoc_unique hnd hd1 hd2
      rw [hdd, hs2] at hs1
      exact Bool.false_eq_true.mp hs1
    have hPLnd : (prune_list irk_window default_window max_count now
        (metadevice_primos metas) devices).Nodup := by
      rw [hPL]
      exact List.Nodup.append hSKnd hTnd hdisj
    have hTlen : (((sorted_pairs (prunable_stamps irk_window default_window now
        (metadevice_primos metas) devices)).take
          ((devices.length : ℤ)
            - (prune_stale_keys irk_window default_window now
                (metadevice_primos metas) devices).length
            - max_count).toNat).map Prod.snd).length
        = devices.length - (devices.filter (fun kd =>
            prune_eligible (metadevice_primos metas) kd
              && prune_stale irk_window default_window now kd)).length
            - max_count := by
      rw [List.length_map, List.length_take, hslen, hSK]
      omega
    have hfin := hresult hPLnd
    rw [hPL, List.length_append, hTlen, hSK] at hfin
    rw [hfin]
    omega
  · intro hle
    have hq : ¬ ((0 : ℤ) < (devices.length : ℤ)
        - (prune_stale_keys irk_window default_window now
            (metadevice_primos metas) devices).length - max_count) := by
      rw [hSK]
      omega
    have hPL : prune_list irk_window default_window max_count now
        (metadevice_primos metas) devices
        = prune_stale_keys irk_window default_window now
            (metadevice_primos metas) devices := by
      unfold prune_list
      rw [if_neg hq]
    have hfin := hresult (hPL ▸ hSKnd)
    rw [hPL, hSK] at hfin
    exact hfin

/-- Claim C4: `prune_devices` removes exactly the eligible stale
records — ineligible records are never removed, every eligible record
beyond its staleness window is removed — and when the table still
exceeds the cap, surplus eligible-but-fresh records are removed
oldest-`last_seen`-first (any removed fresh record drags every strictly
older eligible fresh record with it) until the table size equals
`PRUNE_MAX_COUNT`, provided enough eligible records exist; when the
table does not exceed the cap, only the stale records go. -/
theorem C4_prune_devices_policy (irk_window default_window : ℚ)
    (max_count : ℕ) (now : ℚ) (metas : List BermudaDevice)
    (devices : List (String × BermudaDevice))
    (hnd : (devices.map Prod.fst).Nodup) :
    (∀ kd ∈ devices,
      prune_eligible (metadevice_primos metas) kd = false →
      kd ∈ prune_devices irk_window default_window max_count now metas devices)
    ∧ (∀ kd ∈ devices,
      prune_eligible (metadevice_primos metas) kd = true →
      prune_stale irk_window default_window now kd = true →
      kd ∉ prune_devices irk_window default_window max_count now metas devices)
    ∧ (∀ kd ∈ devices, ∀ kd' ∈ devices,
      prune_eligible (metadevice_primos metas) kd = true →
      prune_stale irk_window default_window now kd = false →
      prune_eligible (metadevice_primos metas) kd' = true →
      prune_stale irk_window default_window now kd' = false →
      kd ∉ prune_devices irk_window default_window max_count now metas devices →
      kd'.2.last_seen < kd.2.last_seen →
      kd' ∉ prune_devices irk_window default_window max_count now metas devices)
    ∧ (max_count + (devices.filter (fun kd =>
        prune_eligible (metadevice_primos metas) kd
          && prune_stale irk_window default_window now kd)).length
        < devices.length →
      devices.length - (devices.filter (fun kd =>
        prune_eligible (metadevice_primos metas) kd
          && prune_stale irk_window default_window now kd)).length - max_count
        ≤ (devices.filter (fun kd =>
            prune_eligible (metadevice_primos metas) kd
              && !(prune_stale irk_window default_window now kd))).length →
      (prune_devices irk_window default_window max_count now metas
        devices).length = max_count)
    ∧ (devices.length ≤ max_count + (devices.filter (fun kd =>
        prune_eligible (metadevice_primos metas) kd
          && prune_stale irk_window default_window now kd)).length →
      (prune_devices irk_window default_window max_count now metas
        devices).length
        = devices.length - (devices.filter (fun kd =>
            prune_eligible (metadevice_primos metas) kd
              && prune_stale irk_window default_window now kd)).length) := by
  have habc := prune_removes_exactly_abc irk_window default_window max_count
    now metas devices hnd
  have hd := prune_devices_length irk_window default_window max_count now
    metas devices hnd
  exact ⟨habc.1, habc.2.1, habc.2.2, hd.1, hd.2⟩

def c4_meta : BermudaDevice := { address := "meta", beacon_sources := ["m1"] }

def c4_live : BermudaDevice := { address := "m1", last_seen := 990 }

def c4_stale : BermudaDevice := { address := "s1", last_seen := 5 }

def c4_f1 : BermudaDevice := { address := "f1", last_seen := 950 }

def c4_f2 : BermudaDevice := { address := "f2", last_seen := 960 }

def c4_devices : List (String × BermudaDevice) :=
  [("m1", c4_live), ("s1", c4_stale), ("f1", c4_f1), ("f2", c4_f2)]

/-- Witness for C4 on a concrete table of four devices: the live
metadevice source is kept, the eligible stale device is removed, and
with cap 1 the two fresh eligible devices are trimmed so that exactly
one device remains. -/
theorem C4_witness :
    ("m1", c4_live) ∈ prune_devices 10 100 1 1000 [c4_meta] c4_devices
      ∧ ("s1", c4_stale) ∉ prune_devices 10 100 1 1000 [c4_meta] c4_devices
      ∧ (prune_devices 10 100 1 1000 [c4_meta] c4_devices).length = 1 := by
  have e_m1 : prune_eligible (metadevice_primos [c4_meta]) ("m1", c4_live)
      = false := by
    simp [prune_eligible, metadevice_primos, c4_meta, c4_live]
  have e_s1 : prune_eligible (metadevice_primos [c4_meta]) ("s1", c4_stale)
      = true := by
    simp [prune_eligible, metadevice_primos, c4_meta, c4_stale]
  have e_f1 : prune_eligible (metadevice_primos [c4_meta]) ("f1", c4_f1)
      = true := by
    simp [prune_eligible, metadevice_primos, c4_meta, c4_f1]
  have e_f2 : prune_eligible (metadevice_primos [c4_meta]) ("f2", c4_f2)
      = true := by
    simp [prune_eligible, metadevice_primos, c4_meta, c4_f2]
  have st_s1 : prune_stale 10 100 1000 ("s1", c4_stale) = true := by
    simp only [prune_stale, c4_stale]
    norm_num
  have st_f1 : prune_stale 10 100 1000 ("f1", c4_f1) = false := by
    simp only [prune_stale, c4_f1]
    norm_num
    decide
  have st_f2 : prune_stale 10 100 1000 ("f2", c4_f2) = false := by
    simp only [prune_stale, c4_f2]
    norm_num
    decide
  have hS : (c4_devices.filter (fun kd =>
      prune_eligible (metadevice_primos [c4_meta]) kd
        && prune_stale 10 100 1000 kd)).length = 1 := by
    simp [c4_devices, List.filter_cons, e_m1, e_s1, e_f1, e_f2, st_s1,
      st_f1, st_f2]
  have hP : (c4_devices.filter (fun kd =>
      prune_eligible (metadevice_primos [c4_meta]) kd
        && !(prune_stale 10 100 1000 kd))).length = 2 := by
    simp [c4_devices, List.filter_cons, e_m1, e_s1, e_f1, e_f2, st_s1,
      st_f1, st_f2]
  have h := C4_prune_devices_policy 10 100 1 1000 [c4_meta] c4_devices
    (by decide)
  refine ⟨?_, ?_, ?_⟩
  · exact h.1 _ (List.mem_cons_self _ _) e_m1
  · exact h.2.1 _ (by simp [c4_devices]) e_s1 st_s1
  · have hd := h.2.2.2.1
    rw [hS, hP] at hd
    have hlen : c4_devices.length = 4 := by simp [c4_devices]
    rw [hlen] at hd
    exact hd (by norm_num) (by norm_num)
